import Mathlib

/-!
Shallow embedding of the validation and publishing core of the
`api-publishing-as-a-service` repository (files `app/models/content.py`,
`app/services/validation.py`, `app/services/publisher.py`), together with
theorems about the embedded definitions.

Modelling conventions:
* Python strings are Lean `String`; `len` is `String.length`; `str.strip()`
  is `pyStrip` (structural recursion; `String.trim` does not kernel-reduce).
* Python `Optional[T]` fields are `Option T`; optional list fields with a
  `default_factory=list` (`tags`, `categories`, `images`, `keywords`) are
  plain Lean lists, with `None` identified with the empty list — every read
  of those fields in the source is guarded by truthiness, which does not
  distinguish `None` from `[]`.
* Python truthiness of an optional string (`if x:`) is `optTruthy`:
  the value is not `None` and not the empty string.
* `BeautifulSoup` is an external library; its result on the HTML body is
  modelled as an oracle `Analyzer : String → Except String HtmlAnalysis`
  supplied as a parameter.  The `HtmlAnalysis` fields are exactly the five
  queries `_validate_html_content` performs on the parsed soup.
* Machine integers do not overflow here (Python ints); scores are `Int`.
-/

namespace App

/-- Content type enumeration, from `ContentType` in `app/models/content.py`. -/
inductive ContentType
  | blog
  | faq
  | article
  | productDescription
  | landingPage
deriving DecidableEq, Repr

/-- SEO configuration, from `SEOConfig` in `app/models/content.py`.
Only fields read by the validator are kept (`canonical_url`, `og_*`,
`twitter_card`, `twitter_site` are never read by the embedded core). -/
structure SEOConfig where
  metaTitle : Option String
  metaDescription : Option String
  keywords : List String
deriving DecidableEq, Repr

/-- Content image, from `ContentImage`.  `caption`, `width`, `height` are
never read by the embedded core and are omitted.  `url` and `alt_text` are
required fields (`alt_text` may be the empty string). -/
structure ContentImage where
  url : String
  altText : String
deriving DecidableEq, Repr

/-- FAQ item, from `FAQItem` (its optional `category` is never read). -/
structure FAQItem where
  question : String
  answer : String
  order : Int
deriving DecidableEq, Repr

/-- Product specification, from `ProductSpecification` (`unit` and
`category` are never read by the embedded core). -/
structure ProductSpecification where
  name : String
  value : String
deriving DecidableEq, Repr

/-- Main content model, from `AIContent` in `app/models/content.py`.
Fields never read by the validator or publisher (`status`, `publish_date`,
`author`, `language`, `featured_image`, `custom_fields`) are omitted. -/
structure AIContent where
  type : ContentType
  title : String
  content : String
  excerpt : Option String
  tags : List String
  categories : List String
  seo : Option SEOConfig
  images : List ContentImage
  faqs : List FAQItem
  specifications : List ProductSpecification
  ctaText : Option String
  ctaUrl : Option String
deriving DecidableEq, Repr

/-- Result of parsing the HTML body with BeautifulSoup, as queried by
`_validate_html_content` (validation.py lines 315-363):
whether the extracted text is blank, the number of `img` tags with an empty
`alt` attribute, the number of empty links, the number of heading tags, and
the number of `h1` tags. -/
structure HtmlAnalysis where
  textBlank : Bool
  imagesWithoutAlt : Nat
  emptyLinks : Nat
  headings : Nat
  h1Count : Nat
deriving DecidableEq, Repr

/-- Oracle for the external BeautifulSoup call: either the analysis of the
HTML string, or the message of a raised exception (the `except` branch at
validation.py lines 359-363). -/
def Analyzer : Type := String → Except String HtmlAnalysis

/-- The configuration limits read by the embedded core, from `Settings` in
`app/config.py`. -/
structure Settings where
  maxContentLength : Nat
  maxImagesPerContent : Nat
  maxBatchSize : Nat
deriving DecidableEq, Repr

/-- Default limits from `app/config.py` (lines 81-94). -/
def defaultSettings : Settings :=
  { maxContentLength := 100000, maxImagesPerContent := 20, maxBatchSize := 100 }

/-- One entry of the validator's `errors` / `warnings` lists: a dict
`{'field': ..., 'message': ...}`. -/
structure VMsg where
  field : String
  message : String
deriving DecidableEq, Repr

/-- Python `str.strip()`: drop leading and trailing whitespace.  (Defined
by structural recursion over the character list rather than with
`String.trim`, whose byte-position recursion the kernel cannot evaluate.) -/
def pyStrip (s : String) : String :=
  ⟨((s.data.dropWhile Char.isWhitespace).reverse.dropWhile Char.isWhitespace).reverse⟩

/-- Python truthiness of an `Optional[str]` value. -/
def optTruthy : Option String → Bool
  | none => false
  | some s => !(s == "")

/-- Validation result, from `ContentValidationResult` in content.py. -/
structure ContentValidationResult where
  isValid : Bool
  errors : List VMsg
  warnings : List VMsg
  score : Int
deriving DecidableEq, Repr

/-- Basic field validation, from `_validate_basic_fields`
(validation.py lines 83-155).  Returns the `(errors, warnings)` the method
appends, each list in append order. -/
def validateBasicFields (sett : Settings) (c : AIContent) : List VMsg × List VMsg :=
  let titlePair : List VMsg × List VMsg :=
    if c.title = "" ∨ pyStrip c.title = "" then
      ([⟨"title", "Title is required and cannot be empty"⟩], [])
    else if c.title.length > 200 then
      ([⟨"title", "Title must be 200 characters or less"⟩], [])
    else if c.title.length < 10 then
      ([], [⟨"title", "Title is quite short, consider making it more descriptive"⟩])
    else ([], [])
  let contentPair : List VMsg × List VMsg :=
    if c.content = "" ∨ pyStrip c.content = "" then
      ([⟨"content", "Content is required and cannot be empty"⟩], [])
    else if c.content.length > sett.maxContentLength then
      let m := sett.maxContentLength
      ([⟨"content", s!"Content exceeds maximum length of {m} characters"⟩], [])
    else if c.content.length < 100 then
      ([], [⟨"content", "Content is quite short, consider adding more detail"⟩])
    else ([], [])
  let excerptErrs : List VMsg :=
    match c.excerpt with
    | some e => if e.length > 500 then [⟨"excerpt", "Excerpt must be 500 characters or less"⟩] else []
    | none => []
  let tagErrs : List VMsg :=
    if c.tags.isEmpty then []
    else
      (if c.tags.length > 20 then [⟨"tags", "Maximum 20 tags allowed"⟩] else []) ++
      c.tags.enum.filterMap (fun p =>
        let i := p.1
        if p.2.length > 50 then some ⟨s!"tags[{i}]", "Tag must be 50 characters or less"⟩ else none)
  let catErrs : List VMsg :=
    if c.categories.isEmpty then []
    else
      (if c.categories.length > 10 then [⟨"categories", "Maximum 10 categories allowed"⟩] else []) ++
      c.categories.enum.filterMap (fun p =>
        let i := p.1
        if p.2.length > 100 then some ⟨s!"categories[{i}]", "Category must be 100 characters or less"⟩ else none)
  (titlePair.1 ++ contentPair.1 ++ excerptErrs ++ tagErrs ++ catErrs,
   titlePair.2 ++ contentPair.2)

/-- FAQ list validation, from `_validate_faqs` (validation.py lines 185-227). -/
def validateFaqs (faqs : List FAQItem) : List VMsg × List VMsg :=
  if faqs.isEmpty then
    ([⟨"faqs", "At least one FAQ item is required"⟩], [])
  else
    let countErrs : List VMsg :=
      if faqs.length > 50 then [⟨"faqs", "Maximum 50 FAQ items allowed"⟩] else []
    let perFaq : List VMsg :=
      (faqs.enum.map (fun p =>
        let i := p.1
        let f := p.2
        (if f.question = "" ∨ pyStrip f.question = "" then
          [⟨s!"faqs[{i}].question", "FAQ question is required"⟩]
        else if f.question.length > 500 then
          [⟨s!"faqs[{i}].question", "FAQ question must be 500 characters or less"⟩]
        else []) ++
        (if f.answer = "" ∨ pyStrip f.answer = "" then
          [⟨s!"faqs[{i}].answer", "FAQ answer is required"⟩]
        else if f.answer.length > 2000 then
          [⟨s!"faqs[{i}].answer", "FAQ answer must be 2000 characters or less"⟩]
        else []) ++
        (if f.order < 1 then [⟨s!"faqs[{i}].order", "FAQ order must be 1 or greater"⟩] else []))).flatten
    (countErrs ++ perFaq, [])

/-- Specification list validation, from `_validate_specifications`
(validation.py lines 229-258). -/
def validateSpecifications (specs : List ProductSpecification) : List VMsg × List VMsg :=
  let countErrs : List VMsg :=
    if specs.length > 100 then [⟨"specifications", "Maximum 100 specifications allowed"⟩] else []
  let perSpec : List VMsg :=
    (specs.enum.map (fun p =>
      let i := p.1
      let s := p.2
      (if s.name = "" ∨ pyStrip s.name = "" then
        [⟨s!"specifications[{i}].name", "Specification name is required"⟩]
      else if s.name.length > 100 then
        [⟨s!"specifications[{i}].name", "Specification name must be 100 characters or less"⟩]
      else []) ++
      (if s.value = "" ∨ pyStrip s.value = "" then
        [⟨s!"specifications[{i}].value", "Specification value is required"⟩]
      else if s.value.length > 200 then
        [⟨s!"specifications[{i}].value", "Specification value must be 200 characters or less"⟩]
      else []))).flatten
  (countErrs ++ perSpec, [])

/-- Content-type specific validation, from `_validate_content_type_specific`
(validation.py lines 157-183). -/
def validateContentTypeSpecific (c : AIContent) : List VMsg × List VMsg :=
  match c.type with
  | .faq =>
    if c.faqs.isEmpty then
      ([⟨"faqs", "FAQ content must include at least one FAQ item"⟩], [])
    else validateFaqs c.faqs
  | .productDescription =>
    if c.specifications.isEmpty then
      ([], [⟨"specifications", "Product descriptions typically include specifications"⟩])
    else validateSpecifications c.specifications
  | .landingPage =>
    if !optTruthy c.ctaText ∨ !optTruthy c.ctaUrl then
      ([], [⟨"cta", "Landing pages typically include a call-to-action"⟩])
    else ([], [])
  | _ => ([], [])

/-- SEO validation, from `_validate_seo` (validation.py lines 260-313). -/
def validateSeo (c : AIContent) : List VMsg × List VMsg :=
  match c.seo with
  | none => ([], [⟨"seo", "SEO configuration is recommended for better search visibility"⟩])
  | some seo =>
    let titlePair : List VMsg × List VMsg :=
      if optTruthy seo.metaTitle then
        let t := seo.metaTitle.getD ""
        if t.length > 60 then
          ([⟨"seo.meta_title", "Meta title should be 60 characters or less for optimal SEO"⟩], [])
        else if t.length < 30 then
          ([], [⟨"seo.meta_title", "Meta title is quite short, consider making it more descriptive"⟩])
        else ([], [])
      else
        ([], [⟨"seo.meta_title", "Meta title is recommended for SEO"⟩])
    let descPair : List VMsg × List VMsg :=
      if optTruthy seo.metaDescription then
        let d := seo.metaDescription.getD ""
        if d.length > 160 then
          ([⟨"seo.meta_description", "Meta description should be 160 characters or less for optimal SEO"⟩], [])
        else if d.length < 120 then
          ([], [⟨"seo.meta_description", "Meta description is quite short, consider making it more descriptive"⟩])
        else ([], [])
      else
        ([], [⟨"seo.meta_description", "Meta description is recommended for SEO"⟩])
    let kwWarns : List VMsg :=
      if !seo.keywords.isEmpty ∧ seo.keywords.length > 20 then
        [⟨"seo.keywords", "Too many keywords may dilute SEO effectiveness"⟩]
      else []
    (titlePair.1 ++ descPair.1, titlePair.2 ++ descPair.2 ++ kwWarns)

/-- HTML structure validation, from `_validate_html_content`
(validation.py lines 315-363), with the BeautifulSoup call abstracted as
the analyzer oracle. -/
def validateHtmlContent (az : Analyzer) (c : AIContent) : List VMsg × List VMsg :=
  match az c.content with
  | .error e => ([⟨"content", "Invalid HTML content: " ++ e⟩], [])
  | .ok a =>
    let errs : List VMsg :=
      if a.textBlank then [⟨"content", "Content appears to be empty after HTML parsing"⟩] else []
    let warns : List VMsg :=
      (if a.imagesWithoutAlt > 0 then
        let n := a.imagesWithoutAlt
        [⟨"content", s!"Found {n} images without alt text for accessibility"⟩]
      else []) ++
      (if a.emptyLinks > 0 then
        let n := a.emptyLinks
        [⟨"content", s!"Found {n} empty links"⟩]
      else []) ++
      (if a.headings = 0 then
        [⟨"content", "Content has no headings, consider adding structure"⟩]
      else []) ++
      (if a.h1Count > 1 then
        [⟨"content", "Multiple H1 tags found, consider using only one for SEO"⟩]
      else [])
    (errs, warns)

/-- Image validation, from `_validate_images` (validation.py lines 365-387). -/
def validateImages (sett : Settings) (c : AIContent) : List VMsg × List VMsg :=
  if c.images.isEmpty then ([], [])
  else
    let countErrs : List VMsg :=
      if c.images.length > sett.maxImagesPerContent then
        let m := sett.maxImagesPerContent
        [⟨"images", s!"Maximum {m} images allowed"⟩]
      else []
    let altWarns : List VMsg :=
      c.images.enum.filterMap (fun p =>
        let i := p.1
        if p.2.altText = "" then some ⟨s!"images[{i}].alt_text", "Image alt text is recommended for accessibility"⟩ else none)
    let urlErrs : List VMsg :=
      c.images.enum.filterMap (fun p =>
        let i := p.1
        if p.2.url = "" then some ⟨s!"images[{i}].url", "Image URL is required"⟩ else none)
    (countErrs ++ urlErrs, altWarns)

/-- Bonus points of the score, from `_calculate_validation_score`
(validation.py lines 397-406); the conditions are the Python truthiness
tests of that method. -/
def scoreBonus (c : AIContent) : Int :=
  (if (match c.seo with
       | some s => optTruthy s.metaTitle && optTruthy s.metaDescription
       | none => false) then 5 else 0) +
  (if !c.tags.isEmpty ∧ c.tags.length > 0 then 3 else 0) +
  (if !c.categories.isEmpty ∧ c.categories.length > 0 then 2 else 0) +
  (if !c.images.isEmpty ∧ c.images.all (fun img => !(img.altText == "")) then 5 else 0)

/-- Score computation, from `_calculate_validation_score`
(validation.py lines 389-409). -/
def calculateValidationScore (c : AIContent) (errors warnings : List VMsg) : Int :=
  max 0 (min 100 (100 - 10 * (errors.length : Int) - 2 * (warnings.length : Int) + scoreBonus c))

/-- Full generic validation, from `ContentValidator.validate_content`
(validation.py lines 53-81).  Phases run in source order and all contribute
to the same errors/warnings lists. -/
def validateContent (sett : Settings) (az : Analyzer) (c : AIContent) : ContentValidationResult :=
  let basic := validateBasicFields sett c
  let typed := validateContentTypeSpecific c
  let seo := validateSeo c
  let html := validateHtmlContent az c
  let imgs := validateImages sett c
  let errors := basic.1 ++ typed.1 ++ seo.1 ++ html.1 ++ imgs.1
  let warnings := basic.2 ++ typed.2 ++ seo.2 ++ html.2 ++ imgs.2
  { isValid := errors.isEmpty
    errors := errors
    warnings := warnings
    score := calculateValidationScore c errors warnings }

/-- Platform-specific rules, the `(platform_errors, platform_warnings)`
appended by `validate_for_platform` (validation.py lines 418-441). -/
def platformRules (c : AIContent) (platform : String) : List VMsg × List VMsg :=
  if platform = "twitter" then
    (if c.title.length > 280 then
      [⟨"title", "Title too long for Twitter (280 character limit)"⟩]
    else [], [])
  else if platform = "linkedin" then
    ([], if !(c.content == "") ∧ c.content.length > 3000 then
      [⟨"content", "Content is quite long for LinkedIn posts"⟩]
    else [])
  else if platform = "webflow" then
    ([], match c.seo with
      | none => [⟨"seo", "SEO configuration is important for Webflow sites"⟩]
      | some _ => [])
  else ([], [])

/-- Platform-specific validation, from `ContentValidator.validate_for_platform`
(validation.py lines 411-452). -/
def validateForPlatform (sett : Settings) (az : Analyzer) (c : AIContent) (platform : String) :
    ContentValidationResult :=
  let base := validateContent sett az c
  if !base.isValid then base
  else
    let rules := platformRules c platform
    let allErrors := base.errors ++ rules.1
    let allWarnings := base.warnings ++ rules.2
    { isValid := allErrors.isEmpty
      errors := allErrors
      warnings := allWarnings
      score := max 0 (base.score - 5 * (rules.1.length : Int) - (rules.2.length : Int)) }

/-- Pydantic construction-time acceptance for `AIContent`
(content.py lines 87-152): required stripped non-blank title of at most 200
characters, required stripped non-blank content, excerpt at most 500
characters, at most 20 tags and 10 categories, SEO meta bounds, FAQ and
specification field bounds, and the type gates on `faqs` and
`specifications`.  This is an over-approximation of the constructible set
(tag deduplication and stripping are not repeated here), which only widens
the quantification of theorems that assume it. -/
def constructionOk (c : AIContent) : Bool :=
  pyStrip c.title == c.title && !(c.title == "") && c.title.length ≤ 200 &&
  pyStrip c.content == c.content && !(c.content == "") &&
  (match c.excerpt with | some e => e.length ≤ 500 | none => true) &&
  c.tags.length ≤ 20 && c.categories.length ≤ 10 &&
  (match c.seo with
   | some s =>
     (match s.metaTitle with | some t => t.length ≤ 60 | none => true) &&
     (match s.metaDescription with | some d => d.length ≤ 160 | none => true)
   | none => true) &&
  c.faqs.all (fun f =>
    1 ≤ f.question.length && f.question.length ≤ 500 &&
    1 ≤ f.answer.length && f.answer.length ≤ 2000 && 1 ≤ f.order) &&
  (c.faqs.isEmpty || c.type == .faq) &&
  c.specifications.all (fun s =>
    1 ≤ s.name.length && s.name.length ≤ 100 &&
    1 ≤ s.value.length && s.value.length ≤ 200) &&
  (c.specifications.isEmpty || c.type == .productDescription)

/-! Publisher embedding, from `app/services/publisher.py`. -/

/-- Platform type enumeration, from `PlatformType` in content.py. -/
inductive PlatformType
  | webflow
  | wordpress
  | linkedin
  | twitter
deriving DecidableEq, Repr

/-- The `.value` string of a `PlatformType` member. -/
def pval : PlatformType → String
  | .webflow => "webflow"
  | .wordpress => "wordpress"
  | .linkedin => "linkedin"
  | .twitter => "twitter"

/-- One value of the `platform_results` dict built by `publish`
(publisher.py lines 91-121).  Dict keys absent in a branch
(`content_id`, `url`, `warnings`) are modelled as `none` / `[]`. -/
structure PlatformResult where
  success : Bool
  message : String
  contentId : Option String
  url : Option String
  errors : List String
  warnings : List String
deriving DecidableEq, Repr

/-- Response model, from `PublishResponse` in content.py.  The
`platform_results` dict is an insertion-ordered association list, matching
Python dict semantics.  The wall-clock `published_at` field is omitted.
Platform adapters also return this type (see `BasePlatformService.publish`
in `app/services/platforms/base.py`). -/
structure PublishResponse where
  success : Bool
  message : String
  contentId : Option String
  url : Option String
  platformResults : List (String × PlatformResult)
  errors : Option (List String)
  warnings : Option (List String)
deriving DecidableEq, Repr

/-- Free-form per-platform options: an open key-value map that the core
never inspects, only forwards (content.py line 159). -/
def Options : Type := List (String × String)

/-- A platform adapter call: either the `PublishResponse` it returns, or
the message of the exception it raises (caught at publisher.py line 116).
Adapters are external collaborators, modelled as deterministic oracles. -/
def Adapter : Type := AIContent → Options → Except String PublishResponse

/-- Python dict lookup on an insertion-ordered association list. -/
def lookupStr {α : Type} : List (String × α) → String → Option α
  | [], _ => none
  | (k, v) :: rest, s => if k = s then some v else lookupStr rest s

/-- Python dict assignment `d[k] = v`: replaces the value in place if the
key exists, else appends at the end. -/
def dictInsert {α : Type} : List (String × α) → String → α → List (String × α)
  | [], k, v => [(k, v)]
  | (k0, v0) :: rest, k, v =>
    if k0 = k then (k0, v) :: rest else (k0, v0) :: dictInsert rest k v

/-- Request model, from `PublishRequest` in content.py. -/
structure PublishRequest where
  content : AIContent
  platforms : List PlatformType
  options : Options

/-- Accumulator of the per-platform loop of `publish`
(publisher.py lines 78-123): the `platform_results` dict, the
`all_successful` flag, and the top-level `errors` and `warnings` lists. -/
structure LoopState where
  prs : List (String × PlatformResult)
  allOk : Bool
  errs : List String
  warns : List String

/-- One iteration of the per-platform loop of `publish`
(publisher.py lines 83-123): platform-specific validation, adapter call,
and the local `except` recording an adapter fault as a failed result. -/
def publishStep (sett : Settings) (az : Analyzer) (platformsMap : List (String × Adapter))
    (content : AIContent) (options : Options) (st : LoopState) (p : PlatformType) : LoopState :=
  let name := pval p
  match lookupStr platformsMap name with
  | none => st -- unreachable: availability is checked before the loop (lines 64-75)
  | some svc =>
    let pv := validateForPlatform sett az content name
    if !pv.isValid then
      { st with
        prs := dictInsert st.prs name
          ⟨false, "Platform-specific validation failed", none, none,
            pv.errors.map (fun e => e.message), []⟩
        allOk := false }
    else
      match svc content options with
      | .ok result =>
        let entry : PlatformResult :=
          ⟨result.success, result.message, result.contentId, result.url,
            result.errors.getD [], result.warnings.getD []⟩
        { prs := dictInsert st.prs name entry
          allOk := st.allOk && result.success
          errs := if result.success then st.errs else st.errs ++ result.errors.getD []
          warns := if result.success then st.warns ++ result.warnings.getD [] else st.warns }
      | .error e =>
        let m := "Error publishing to " ++ name ++ ": " ++ e
        { prs := dictInsert st.prs name ⟨false, m, none, none, [e], []⟩
          allOk := false
          errs := st.errs ++ [m]
          warns := st.warns }

/-- Main publish flow, from `ContentPublisher.publish`
(publisher.py lines 51-156).  The outer `try/except` is dead here: every
branch ends in a structured response. -/
def publish (sett : Settings) (az : Analyzer) (platformsMap : List (String × Adapter))
    (request : PublishRequest) : PublishResponse :=
  let validationResult := validateContent sett az request.content
  if !validationResult.isValid then
    { success := false
      message := "Content validation failed"
      contentId := none
      url := none
      platformResults := []
      errors := some (validationResult.errors.map (fun e => e.message))
      warnings := some (validationResult.warnings.map (fun w => w.message)) }
  else
    let unavailable := request.platforms.filter
      (fun p => (lookupStr platformsMap (pval p)).isNone)
    if !unavailable.isEmpty then
      let joined := String.intercalate ", " (unavailable.map pval)
      { success := false
        message := "Platforms not available: " ++ joined
        contentId := none
        url := none
        platformResults := []
        errors := some (unavailable.map (fun p =>
          let name := pval p
          s!"Platform {name} is not configured or enabled"))
        warnings := none }
    else
      let final := request.platforms.foldl
        (publishStep sett az platformsMap request.content request.options)
        ⟨[], true, [], []⟩
      let idUrlMsg : Option String × Option String × String :=
        if final.allOk then
          let n := request.platforms.length
          match (final.prs.map (fun kv => kv.2)).find? (fun r => r.success) with
          | some firstOk => (firstOk.contentId, firstOk.url,
              s!"Content published successfully to {n} platform(s)")
          | none => (none, none, s!"Content published successfully to {n} platform(s)")
        else
          (none, none, "Content publishing completed with some failures")
      { success := final.allOk
        message := idUrlMsg.2.2
        contentId := idUrlMsg.1
        url := idUrlMsg.2.1
        platformResults := final.prs
        errors := if final.errs.isEmpty then none else some final.errs
        warnings := if final.warns.isEmpty then none else some final.warns }

/-- Outcome of one platform iteration, classified by which branch of the
loop body runs: platform validation failed, adapter returned a result, or
the adapter raised; `missing` covers a platform absent from the adapter
map, which cannot be reached past the availability check. -/
inductive PBranch
  | vfail (errs : List VMsg)
  | res (r : PublishResponse)
  | exn (e : String)
  | missing
deriving Repr

/-- Which branch of the loop body runs for platform `p`
(mirrors the discrimination of `publishStep`). -/
def branchOf (sett : Settings) (az : Analyzer) (platformsMap : List (String × Adapter))
    (content : AIContent) (options : Options) (p : PlatformType) : PBranch :=
  match lookupStr platformsMap (pval p) with
  | none => .missing
  | some svc =>
    let pv := validateForPlatform sett az content (pval p)
    if !pv.isValid then .vfail pv.errors
    else
      match svc content options with
      | .ok result => .res result
      | .error e => .exn e

/-- The `platform_results` entry a branch produces. -/
def entryOf (name : String) : PBranch → PlatformResult
  | .vfail errs => ⟨false, "Platform-specific validation failed", none, none,
      errs.map (fun e => e.message), []⟩
  | .res r => ⟨r.success, r.message, r.contentId, r.url, r.errors.getD [], r.warnings.getD []⟩
  | .exn e => ⟨false, "Error publishing to " ++ name ++ ": " ++ e, none, none, [e], []⟩
  | .missing => ⟨false, "", none, none, [], []⟩

/-- What a branch appends to the top-level `errors` list. -/
def errContrib (name : String) : PBranch → List String
  | .vfail _ => []
  | .res r => if r.success then [] else r.errors.getD []
  | .exn e => ["Error publishing to " ++ name ++ ": " ++ e]
  | .missing => []

/-- What a branch appends to the top-level `warnings` list. -/
def warnContrib : PBranch → List String
  | .res r => if r.success then r.warnings.getD [] else []
  | _ => []

/-- Whether a branch leaves `all_successful` intact (a missing platform is
skipped by the embedded loop and touches nothing; it cannot be reached
past the availability check). -/
def branchOk : PBranch → Bool
  | .res r => r.success
  | .missing => true
  | _ => false

/-- The loop state after the whole per-platform loop of `publish`
(publisher.py lines 78-123), starting from the empty dict, a true flag and
empty lists. -/
def publishFinal (sett : Settings) (az : Analyzer) (maps : List (String × Adapter))
    (req : PublishRequest) : LoopState :=
  req.platforms.foldl (publishStep sett az maps req.content req.options) ⟨[], true, [], []⟩

/-! Batch orchestrator embedding, from `ContentPublisher.batch_publish`
(publisher.py lines 158-231). -/

/-- Request model, from `BatchPublishRequest` in content.py. -/
structure BatchPublishRequest where
  contentItems : List AIContent
  platforms : List PlatformType
  options : Options
  concurrency : Nat
  stopOnError : Bool

/-- Response model, from `BatchPublishResponse` in content.py
(the wall-clock `completed_at` field is omitted). -/
structure BatchPublishResponse where
  success : Bool
  totalItems : Nat
  successfulItems : Nat
  failedItems : Nat
  results : List PublishResponse
  errors : Option (List String)
deriving DecidableEq, Repr

/-- One element of the list returned by
`asyncio.gather(*tasks, return_exceptions=True)` (publisher.py line 185):
either the `PublishResponse` of `publish_single_item`, or an exception it
raised, carried as its message. -/
inductive ItemOutcome
  | ok (r : PublishResponse)
  | exn (e : String)
deriving DecidableEq, Repr

/-- Whether an outcome counts as a failure for the processing loop:
an exception, or a response with `success == False`. -/
def outcomeFailed : ItemOutcome → Bool
  | .ok r => !r.success
  | .exn _ => true

/-- The `PublishResponse` the processing loop appends at index `i`
(0-based, as produced by `enumerate`): the response itself, or the
synthesized failure response of publisher.py lines 195-199. -/
def processedOf (i : Nat) : ItemOutcome → PublishResponse
  | .ok r => r
  | .exn e =>
    let j := i + 1
    { success := false
      message := s!"Error processing item {j}: {e}"
      contentId := none
      url := none
      platformResults := []
      errors := some [e]
      warnings := none }

/-- The result-processing loop of `batch_publish`
(publisher.py lines 187-212), scanning gathered outcomes in index order.
Returns `(successful_items, failed_items, processed_results, errors)`.
`i` is the 0-based index of the first element of the remaining list. -/
def processResults (stop : Bool) : Nat → List ItemOutcome →
    Nat × Nat × List PublishResponse × List String
  | _, [] => (0, 0, [], [])
  | i, o :: rest =>
    let j := i + 1
    match o with
    | .exn e =>
      if stop then (0, 1, [processedOf i (.exn e)], [s!"Stopped at item {j} due to error: {e}"])
      else
        let t := processResults stop (i + 1) rest
        (t.1, t.2.1 + 1, processedOf i (.exn e) :: t.2.2.1, t.2.2.2)
    | .ok r =>
      if r.success then
        let t := processResults stop (i + 1) rest
        (t.1 + 1, t.2.1, r :: t.2.2.1, t.2.2.2)
      else if stop then (0, 1, [r], [s!"Stopped at item {j} due to publishing failure"])
      else
        let t := processResults stop (i + 1) rest
        (t.1, t.2.1 + 1, r :: t.2.2.1, t.2.2.2)

/-- Batch publish, from `ContentPublisher.batch_publish`
(publisher.py lines 158-231), parametric in the single-item runner
(the task `publish_single_item` of lines 174-181, whose outcome for an item
is a function of the item since the platform list, options and adapters are
fixed for the batch).  The outer `try/except` is dead here: every branch
returns a structured response. -/
def batchPublish (sett : Settings) (runItem : AIContent → ItemOutcome)
    (req : BatchPublishRequest) : BatchPublishResponse :=
  let n := req.contentItems.length
  if n > sett.maxBatchSize then
    let m := sett.maxBatchSize
    { success := false
      totalItems := n
      successfulItems := 0
      failedItems := n
      results := []
      errors := some [s!"Batch size exceeds maximum of {m} items"] }
  else
    let outcomes := req.contentItems.map runItem
    let t := processResults req.stopOnError 0 outcomes
    { success := t.2.1 == 0
      totalItems := n
      successfulItems := t.1
      failedItems := t.2.1
      results := t.2.2.1
      errors := if t.2.2.2.isEmpty then none else some t.2.2.2 }

/-- The single-item runner induced by the real `publish_single_item`
(publisher.py lines 174-181): it builds a `PublishRequest` from the batch's
shared platform list and options and awaits `publish`, which catches every
exception internally, so the runner always yields `ok`. -/
def runItemPublish (sett : Settings) (az : Analyzer) (platformsMap : List (String × Adapter))
    (platforms : List PlatformType) (options : Options) : AIContent → ItemOutcome :=
  fun c => .ok (publish sett az platformsMap ⟨c, platforms, options⟩)

/-- The items whose publish operation is started by `batch_publish`.
A task is created for every content item (the comprehension at publisher.py
line 184) and `asyncio.gather` at line 185 awaits all of them; each task
acquires a semaphore permit and then runs the full `publish` flow, and
nothing is ever cancelled, so past the batch-size guard every item of the
request is dispatched — `stop_on_error` is only consulted afterwards, in
the result-processing loop over the already-gathered outcomes. -/
def batchDispatched (sett : Settings) (req : BatchPublishRequest) : List AIContent :=
  if req.contentItems.length > sett.maxBatchSize then [] else req.contentItems

/-! Concurrency model for the batch semaphore (publisher.py lines 171-185):
`asyncio.Semaphore(request.concurrency)` with each task doing
`async with semaphore: ... await self.publish(...)`.  A task is pending
until it acquires a permit, running while it holds it, and done once the
publish operation completes; the `async with` releases the permit on exit
whether the body returned a response, a failed response, or raised. -/

/-- Phase of one batch task: final outcomes distinguish a successful
publish, a failed publish, and a raised fault. -/
inductive TaskPhase
  | pending
  | running
  | done (o : ItemOutcome)
deriving DecidableEq, Repr

/-- Whether a task currently holds a semaphore permit. -/
def phaseRunning : TaskPhase → Bool
  | .running => true
  | _ => false

/-- Number of publish operations in flight. -/
def runningCount (ts : List TaskPhase) : Nat :=
  ts.countP (fun t => phaseRunning t)

/-- Interleaving semantics of the semaphore-guarded batch: a pending task
may start only while fewer than `k` tasks hold permits (semaphore acquire),
and a running task may complete with any outcome (body return or raise,
with the permit released by the `async with` exit). -/
inductive SemStep (k : Nat) : List TaskPhase → List TaskPhase → Prop
  | start (ts : List TaskPhase) (i : Nat) (hi : i < ts.length)
      (hp : ts.get ⟨i, hi⟩ = .pending) (hk : runningCount ts < k) :
      SemStep k ts (ts.set i .running)
  | finish (ts : List TaskPhase) (i : Nat) (hi : i < ts.length) (o : ItemOutcome)
      (hr : ts.get ⟨i, hi⟩ = .running) :
      SemStep k ts (ts.set i (.done o))

/-- States reachable from the initial batch state in which every task of
the batch is pending. -/
def SemReachable (k n : Nat) (ts : List TaskPhase) : Prop :=
  Relation.ReflTransGen (SemStep k) (List.replicate n .pending) ts

/-! Concrete fixtures used by witnesses and counterexamples. -/

/-- Analyzer fixture: what BeautifulSoup reports for the simple HTML bodies
of the fixtures below (non-blank text, no images, no empty links, one
heading which is an `h1`). -/
def azOk : Analyzer := fun _ => .ok ⟨false, 0, 0, 1, 1⟩

/-- A well-formed blog content item (passes construction and validation). -/
def cGood : AIContent :=
  { type := .blog, title := "Test Blog Post",
    content := "<h1>Test Content</h1><p>This is a test blog post.</p>",
    excerpt := none, tags := ["test", "blog"], categories := [],
    seo := none, images := [], faqs := [], specifications := [],
    ctaText := none, ctaUrl := none }

/-- The same content with a 250-character title, as in the C7 scenario
(constructible only by attribute assignment, as the repository's own
`test_platform_specific_validation` does). -/
def c250 : AIContent := { cGood with title := String.mk (List.replicate 250 'A') }

/-- Adapter response fixture: a successful publish. -/
def okResp : PublishResponse :=
  { success := true, message := "published", contentId := some "id-1",
    url := some "https://example.com/p/1", platformResults := [],
    errors := none, warnings := none }

/-- Adapter response fixture: a failed publish carrying an error and a
warning. -/
def failResp : PublishResponse :=
  { success := false, message := "remote rejected", contentId := none,
    url := none, platformResults := [], errors := some ["e1"],
    warnings := some ["w1"] }

/-- Adapter fixtures. -/
def aOk : Adapter := fun _ _ => .ok okResp

/-- Adapter that reports a failed publish. -/
def aFail : Adapter := fun _ _ => .ok failResp

/-- Adapter that raises. -/
def aBoom : Adapter := fun _ _ => .error "boom"

/-- Platform map and request for the C2 counterexample: webflow succeeds,
wordpress fails with a warning attached to its result. -/
def cexMaps : List (String × Adapter) := [("webflow", aOk), ("wordpress", aFail)]

/-- Publish request fixture targeting both platforms of `cexMaps`. -/
def cexReq : PublishRequest := ⟨cGood, [.webflow, .wordpress], []⟩

/-- Platform map for the C8 witness: webflow succeeds, wordpress raises. -/
def boomMaps : List (String × Adapter) := [("webflow", aOk), ("wordpress", aBoom)]

/-- Publish request fixture targeting both platforms of `boomMaps`. -/
def boomReq : PublishRequest := ⟨cGood, [.webflow, .wordpress], []⟩

/-- Batch items for the C1/C6/C10 scenario. -/
def item1 : AIContent := { cGood with title := "Batch Item One" }

/-- Second batch item; the batch adapter rejects it. -/
def item2 : AIContent := { cGood with title := "Batch Item Two" }

/-- Third batch item. -/
def item3 : AIContent := { cGood with title := "Batch Item Three" }

/-- Adapter that rejects exactly the second batch item. -/
def batchAdapter : Adapter :=
  fun c _ => .ok (if c.title == "Batch Item Two" then failResp else okResp)

/-- Platform map for the batch scenario. -/
def batchMaps : List (String × Adapter) := [("wordpress", batchAdapter)]

/-- The real single-item runner for the batch scenario: each item goes
through the full `publish` flow against `batchMaps`. -/
def c6run : AIContent → ItemOutcome :=
  runItemPublish defaultSettings azOk batchMaps [.wordpress] []

/-- Batch request of the C6 scenario: 3 items, concurrency 1,
`stop_on_error = true`; item 2 fails. -/
def c6req : BatchPublishRequest := ⟨[item1, item2, item3], [.wordpress], [], 1, true⟩

/-! Helper lemmas about the validator. -/

/-- Componentwise equality for validation results. -/
theorem ContentValidationResult.eqOf (x y : ContentValidationResult)
    (h1 : x.isValid = y.isValid) (h2 : x.errors = y.errors)
    (h3 : x.warnings = y.warnings) (h4 : x.score = y.score) : x = y := by
  cases x; cases y; simp_all

/-- The stored `is_valid` flag is the emptiness of the stored errors list. -/
theorem validateContent_isValid (sett : Settings) (az : Analyzer) (c : AIContent) :
    (validateContent sett az c).isValid = (validateContent sett az c).errors.isEmpty := rfl

/-- The stored score is the score computed from the stored lists. -/
theorem validateContent_score (sett : Settings) (az : Analyzer) (c : AIContent) :
    (validateContent sett az c).score
      = calculateValidationScore c (validateContent sett az c).errors
          (validateContent sett az c).warnings := rfl

/-- The clamped score is nonnegative. -/
theorem calculateValidationScore_nonneg (c : AIContent) (e w : List VMsg) :
    0 ≤ calculateValidationScore c e w := le_max_left 0 _

/-- The clamped score is at most 100. -/
theorem calculateValidationScore_le (c : AIContent) (e w : List VMsg) :
    calculateValidationScore c e w ≤ 100 :=
  max_le (by norm_num) (min_le_left _ _)

/-- A base result with errors is returned unchanged by
`validate_for_platform`. -/
theorem vfp_of_invalid (sett : Settings) (az : Analyzer) (c : AIContent) (p : String)
    (h : (validateContent sett az c).errors ≠ []) :
    validateForPlatform sett az c p = validateContent sett az c := by
  have hb : (validateContent sett az c).isValid = false := by
    rw [validateContent_isValid]
    cases hE : (validateContent sett az c).errors with
    | nil => exact absurd hE h
    | cons a l => rfl
  unfold validateForPlatform
  simp [hb]

/-- Errors of `validate_for_platform` when the base result is clean. -/
theorem vfp_errors_of_valid (sett : Settings) (az : Analyzer) (c : AIContent) (p : String)
    (h : (validateContent sett az c).errors = []) :
    (validateForPlatform sett az c p).errors
      = (validateContent sett az c).errors ++ (platformRules c p).1 := by
  have hb : (validateContent sett az c).isValid = true := by
    rw [validateContent_isValid, h]; rfl
  unfold validateForPlatform
  simp [hb]

/-- Warnings of `validate_for_platform` when the base result is clean. -/
theorem vfp_warnings_of_valid (sett : Settings) (az : Analyzer) (c : AIContent) (p : String)
    (h : (validateContent sett az c).errors = []) :
    (validateForPlatform sett az c p).warnings
      = (validateContent sett az c).warnings ++ (platformRules c p).2 := by
  have hb : (validateContent sett az c).isValid = true := by
    rw [validateContent_isValid, h]; rfl
  unfold validateForPlatform
  simp [hb]

/-- Score of `validate_for_platform` when the base result is clean. -/
theorem vfp_score_of_valid (sett : Settings) (az : Analyzer) (c : AIContent) (p : String)
    (h : (validateContent sett az c).errors = []) :
    (validateForPlatform sett az c p).score
      = max 0 ((validateContent sett az c).score
          - 5 * ((platformRules c p).1.length : Int) - ((platformRules c p).2.length : Int)) := by
  have hb : (validateContent sett az c).isValid = true := by
    rw [validateContent_isValid, h]; rfl
  unfold validateForPlatform
  simp [hb]

/-- Unknown platform identifiers have no rules in the platform table. -/
theorem platformRules_unknown (c : AIContent) (p : String)
    (h1 : p ≠ "twitter") (h2 : p ≠ "linkedin") (h3 : p ≠ "webflow") :
    platformRules c p = ([], []) := by
  unfold platformRules
  simp [h1, h2, h3]

/-- Validity flag of `validate_for_platform` when the base result is clean. -/
theorem vfp_isValid_of_valid (sett : Settings) (az : Analyzer) (c : AIContent) (p : String)
    (h : (validateContent sett az c).errors = []) :
    (validateForPlatform sett az c p).isValid
      = ((validateContent sett az c).errors ++ (platformRules c p).1).isEmpty := by
  have hb : (validateContent sett az c).isValid = true := by
    rw [validateContent_isValid, h]; rfl
  unfold validateForPlatform
  simp [hb]

set_option maxRecDepth 10000

/-- Claim C3: for every content value accepted at construction, `validate`
returns `score = clamp(100 - 10*|errors| - 2*|warnings| + bonus, 0, 100)`,
with the bonus of `scoreBonus` (+5 when both SEO meta title and meta
description are present, +3 when tags are non-empty, +2 when categories
are non-empty, +5 when images are non-empty and all carry alt text); in
particular the score lies in `[0, 100]`. -/
theorem c3_score_formula (sett : Settings) (az : Analyzer) (c : AIContent)
    (h : constructionOk c = true) :
    (validateContent sett az c).score
      = max 0 (min 100 (100 - 10 * ((validateContent sett az c).errors.length : Int)
          - 2 * ((validateContent sett az c).warnings.length : Int) + scoreBonus c))
    ∧ 0 ≤ (validateContent sett az c).score
    ∧ (validateContent sett az c).score ≤ 100 := by
  refine ⟨rfl, ?_, ?_⟩
  · rw [validateContent_score]
    exact calculateValidationScore_nonneg c _ _
  · rw [validateContent_score]
    exact calculateValidationScore_le c _ _

/-- Witness for C3 at the concrete fixture `cGood`. -/
theorem c3_score_formula_witness :
    constructionOk cGood = true
    ∧ ((validateContent defaultSettings azOk cGood).score
        = max 0 (min 100 (100
            - 10 * ((validateContent defaultSettings azOk cGood).errors.length : Int)
            - 2 * ((validateContent defaultSettings azOk cGood).warnings.length : Int)
            + scoreBonus cGood))
      ∧ 0 ≤ (validateContent defaultSettings azOk cGood).score
      ∧ (validateContent defaultSettings azOk cGood).score ≤ 100) :=
  ⟨by decide, c3_score_formula defaultSettings azOk cGood (by decide)⟩

/-- Claim C4: `validate_for_platform` returns the base result unchanged
when the base result has errors; otherwise it appends the platform rules
to the base sequences and rescores with `max 0 (base - 5*|pe| - |pw|)`;
unknown platform names contribute no additional rules (the result is the
base result itself). -/
theorem c4_platform_overlay (sett : Settings) (az : Analyzer) (c : AIContent) (p : String) :
    ((validateContent sett az c).errors ≠ [] →
        validateForPlatform sett az c p = validateContent sett az c)
    ∧ ((validateContent sett az c).errors = [] →
        (validateForPlatform sett az c p).errors
            = (validateContent sett az c).errors ++ (platformRules c p).1
        ∧ (validateForPlatform sett az c p).warnings
            = (validateContent sett az c).warnings ++ (platformRules c p).2
        ∧ (validateForPlatform sett az c p).score
            = max 0 ((validateContent sett az c).score
                - 5 * ((platformRules c p).1.length : Int)
                - ((platformRules c p).2.length : Int)))
    ∧ (p ≠ "twitter" → p ≠ "linkedin" → p ≠ "webflow" →
        validateForPlatform sett az c p = validateContent sett az c) := by
  refine ⟨vfp_of_invalid sett az c p, ?_, ?_⟩
  · intro h
    exact ⟨vfp_errors_of_valid sett az c p h, vfp_warnings_of_valid sett az c p h,
      vfp_score_of_valid sett az c p h⟩
  · intro h1 h2 h3
    by_cases hE : (validateContent sett az c).errors = []
    · have hr := platformRules_unknown c p h1 h2 h3
      apply ContentValidationResult.eqOf
      · rw [vfp_isValid_of_valid sett az c p hE, hr, List.append_nil, validateContent_isValid]
      · rw [vfp_errors_of_valid sett az c p hE, hr, List.append_nil]
      · rw [vfp_warnings_of_valid sett az c p hE, hr, List.append_nil]
      · rw [vfp_score_of_valid sett az c p hE, hr]
        simp only [List.length_nil, Nat.cast_zero, mul_zero, sub_zero]
        refine max_eq_right ?_
        rw [validateContent_score]
        exact calculateValidationScore_nonneg c _ _
    · exact vfp_of_invalid sett az c p hE

/-- Witness for C4: the overlay branch at `cGood` for twitter. -/
theorem c4_platform_overlay_witness :
    (validateContent defaultSettings azOk cGood).errors = []
    ∧ ((validateForPlatform defaultSettings azOk cGood "twitter").errors
          = (validateContent defaultSettings azOk cGood).errors
              ++ (platformRules cGood "twitter").1
      ∧ (validateForPlatform defaultSettings azOk cGood "twitter").warnings
          = (validateContent defaultSettings azOk cGood).warnings
              ++ (platformRules cGood "twitter").2
      ∧ (validateForPlatform defaultSettings azOk cGood "twitter").score
          = max 0 ((validateContent defaultSettings azOk cGood).score
              - 5 * ((platformRules cGood "twitter").1.length : Int)
              - ((platformRules cGood "twitter").2.length : Int))) :=
  ⟨by decide, (c4_platform_overlay defaultSettings azOk cGood "twitter").2.1 (by decide)⟩

/-- Claim C5: `validate_for_platform` keeps every base error and never
returns fewer errors than `validate` on the same content. -/
theorem c5_errors_monotone (sett : Settings) (az : Analyzer) (c : AIContent) (p : String) :
    (∀ e ∈ (validateContent sett az c).errors, e ∈ (validateForPlatform sett az c p).errors)
    ∧ (validateContent sett az c).errors.length
        ≤ (validateForPlatform sett az c p).errors.length := by
  by_cases hE : (validateContent sett az c).errors = []
  · constructor
    · intro e he
      rw [hE] at he
      cases he
    · rw [hE]
      exact Nat.zero_le _
  · rw [vfp_of_invalid sett az c p hE]
    exact ⟨fun e he => he, le_refl _⟩

/-- Witness for C5: the generic title-length error of the 250-character
title survives into the twitter-specific result. -/
theorem c5_errors_monotone_witness :
    (⟨"title", "Title must be 200 characters or less"⟩ : VMsg)
      ∈ (validateForPlatform defaultSettings azOk c250 "twitter").errors :=
  (c5_errors_monotone defaultSettings azOk c250 "twitter").1 _ (by decide)

/-- A clean basic-fields pass bounds the title at 200 characters. -/
theorem title_le_200 (sett : Settings) (c : AIContent)
    (h : (validateBasicFields sett c).1 = []) : c.title.length ≤ 200 := by
  unfold validateBasicFields at h
  by_contra hgt
  push_neg at hgt
  simp only [List.append_eq_nil] at h
  obtain ⟨⟨⟨⟨h1, _⟩, _⟩, _⟩, _⟩ := h
  split_ifs at h1

/-- The stored errors list is the concatenation of the five phase lists. -/
theorem validateContent_errors (sett : Settings) (az : Analyzer) (c : AIContent) :
    (validateContent sett az c).errors
      = (validateBasicFields sett c).1 ++ (validateContentTypeSpecific c).1
          ++ (validateSeo c).1 ++ (validateHtmlContent az c).1
          ++ (validateImages sett c).1 := rfl

/-- Counterexample for C7: for the 250-character title, the twitter-specific
validation returns only the generic title-length error — no error mentions
the twitter 280-character limit — and the generic validator itself rejects
the title. -/
theorem c7_cex :
    (validateForPlatform defaultSettings azOk c250 "twitter").errors
        = [⟨"title", "Title must be 200 characters or less"⟩]
    ∧ ((validateForPlatform defaultSettings azOk c250 "twitter").errors.all
        (fun e => !(e.message == "Title too long for Twitter (280 character limit)"))) = true
    ∧ (validateContent defaultSettings azOk c250).isValid = false := by
  exact ⟨by decide, by decide, by decide⟩

/-- Claim C7 (amended): the twitter title rule never fires — for every
content, `validate_for_platform` for twitter returns exactly the base
errors, because a title long enough to exceed 280 characters already fails
the base 200-character check and the base result is returned unchanged. -/
theorem c7_twitter_rule_unreachable (sett : Settings) (az : Analyzer) (c : AIContent) :
    (validateForPlatform sett az c "twitter").errors = (validateContent sett az c).errors := by
  by_cases hE : (validateContent sett az c).errors = []
  · rw [vfp_errors_of_valid sett az c "twitter" hE]
    have hbasic : (validateBasicFields sett c).1 = [] := by
      have h0 := hE
      rw [validateContent_errors] at h0
      simp only [List.append_eq_nil] at h0
      exact h0.1.1.1.1
    have hle : c.title.length ≤ 200 := title_le_200 sett c hbasic
    have hr : platformRules c "twitter" = ([], []) := by
      unfold platformRules
      simp [show ¬(c.title.length > 280) from by omega]
    rw [hr, List.append_nil]
  · rw [vfp_of_invalid sett az c "twitter" hE]

/-! Helper lemmas about the batch result-processing loop. -/

/-- The two counters of the processing loop account exactly for the
processed results. -/
theorem processResults_counts (stop : Bool) (os : List ItemOutcome) : ∀ i0,
    (processResults stop i0 os).1 + (processResults stop i0 os).2.1
      = (processResults stop i0 os).2.2.1.length := by
  induction os with
  | nil => intro i0; simp [processResults]
  | cons o rest ih =>
    intro i0
    cases o with
    | exn e =>
      cases stop with
      | true => simp [processResults]
      | false =>
        have h := ih (i0 + 1)
        simp [processResults]
        omega
    | ok r =>
      by_cases hr : r.success
      · have h := ih (i0 + 1)
        simp [processResults, hr]
        omega
      · cases stop with
        | true => simp [processResults, hr]
        | false =>
          have h := ih (i0 + 1)
          simp [processResults, hr]
          omega

/-- Element `k` of the processed results is the processed outcome of the
gathered element `k`. -/
theorem processResults_get (stop : Bool) (os : List ItemOutcome) : ∀ i0 k,
    k < (processResults stop i0 os).2.2.1.length →
    (processResults stop i0 os).2.2.1.get? k
      = (os.get? k).map (fun o => processedOf (i0 + k) o) := by
  induction os with
  | nil => intro i0 k hk; simp [processResults] at hk
  | cons o rest ih =>
    intro i0 k hk
    cases o with
    | exn e =>
      cases stop with
      | true =>
        have hk1 : k = 0 := by
          simp [processResults] at hk
          omega
        subst hk1
        simp [processResults]
      | false =>
        cases k with
        | zero => simp [processResults]
        | succ k2 =>
          have hk2 : k2 < (processResults false (i0 + 1) rest).2.2.1.length := by
            simp [processResults] at hk
            omega
          have h := ih (i0 + 1) k2 hk2
          rw [show i0 + 1 + k2 = i0 + (k2 + 1) from by omega] at h
          simpa [processResults] using h
    | ok r =>
      by_cases hr : r.success
      · cases k with
        | zero => simp [processResults, hr, processedOf]
        | succ k2 =>
          have hk2 : k2 < (processResults stop (i0 + 1) rest).2.2.1.length := by
            simp [processResults, hr] at hk
            omega
          have h := ih (i0 + 1) k2 hk2
          rw [show i0 + 1 + k2 = i0 + (k2 + 1) from by omega] at h
          simpa [processResults, hr] using h
      · cases stop with
        | true =>
          have hk1 : k = 0 := by
            simp [processResults, hr] at hk
            omega
          subst hk1
          simp [processResults, hr, processedOf]
        | false =>
          cases k with
          | zero => simp [processResults, hr, processedOf]
          | succ k2 =>
            have hk2 : k2 < (processResults false (i0 + 1) rest).2.2.1.length := by
              simp [processResults, hr] at hk
              omega
            have h := ih (i0 + 1) k2 hk2
            rw [show i0 + 1 + k2 = i0 + (k2 + 1) from by omega] at h
            simpa [processResults, hr] using h

/-- Without `stop_on_error` the loop processes every gathered outcome. -/
theorem processResults_len_nostop (os : List ItemOutcome) : ∀ i0,
    (processResults false i0 os).2.2.1.length = os.length := by
  induction os with
  | nil => intro i0; simp [processResults]
  | cons o rest ih =>
    intro i0
    cases o with
    | exn e => simp [processResults, ih]
    | ok r =>
      by_cases hr : r.success
      · simp [processResults, hr, ih]
      · simp [processResults, hr, ih]

/-- With `stop_on_error`, if the first failing outcome sits at index `j`,
the loop processes exactly the first `j + 1` outcomes. -/
theorem processResults_stop_len (os : List ItemOutcome) : ∀ i0 j (hj : j < os.length),
    (∀ o ∈ os.take j, outcomeFailed o = false) →
    outcomeFailed (os.get ⟨j, hj⟩) = true →
    (processResults true i0 os).2.2.1.length = j + 1 := by
  induction os with
  | nil => intro i0 j hj; exact absurd hj (by simp)
  | cons o rest ih =>
    intro i0 j hj hpre hfail
    cases j with
    | zero =>
      cases o with
      | exn e => simp [processResults]
      | ok r =>
        have hr : r.success = false := by
          simpa [outcomeFailed] using hfail
        simp [processResults, hr]
    | succ j2 =>
      have hhead : outcomeFailed o = false := by
        apply hpre
        simp [List.take_succ_cons]
      cases o with
      | exn e => simp [outcomeFailed] at hhead
      | ok r =>
        have hr : r.success = true := by
          simpa [outcomeFailed] using hhead
        have hj2 : j2 < rest.length := by
          simpa using hj
        have hpre2 : ∀ o2 ∈ rest.take j2, outcomeFailed o2 = false := by
          intro o2 ho2
          apply hpre
          simp [List.take_succ_cons, ho2]
        have hfail2 : outcomeFailed (rest.get ⟨j2, hj2⟩) = true := by
          simpa using hfail
        simp [processResults, hr, ih i0.succ j2 hj2 hpre2 hfail2]

/-- Counterexample for C1: in the 3-item batch with `stop_on_error = true`
whose first failure sits at index 1, the item at index 2 is still
dispatched (its publish operation runs), even though it is absent from the
truncated results sequence. -/
theorem c1_cex :
    (batchPublish defaultSettings c6run c6req).results.length = 2
    ∧ outcomeFailed (c6run item1) = false
    ∧ outcomeFailed (c6run item2) = true
    ∧ c6req.stopOnError = true
    ∧ batchDispatched defaultSettings c6req = [item1, item2, item3]
    ∧ item3 ∈ batchDispatched defaultSettings c6req := by
  exact ⟨by decide, by decide, by decide, by decide, by decide, by decide⟩

/-- Claim C1 (amended): with `stop_on_error = true` and the first failing
outcome at index `j`, the results sequence is truncated to the first
`j + 1` entries — items after `j` are absent from it — but every item of
the batch is still dispatched: `asyncio.gather` starts all publish
operations before the stop flag is consulted. -/
theorem c1_stop_truncates_not_dispatch (sett : Settings)
    (runItem : AIContent → ItemOutcome) (req : BatchPublishRequest) (j : Nat)
    (hsz : req.contentItems.length ≤ sett.maxBatchSize)
    (hstop : req.stopOnError = true)
    (hj : j < (req.contentItems.map runItem).length)
    (hpre : ∀ o ∈ (req.contentItems.map runItem).take j, outcomeFailed o = false)
    (hfail : outcomeFailed ((req.contentItems.map runItem).get ⟨j, hj⟩) = true) :
    (batchPublish sett runItem req).results.length = j + 1
    ∧ batchDispatched sett req = req.contentItems := by
  have hguard : ¬(req.contentItems.length > sett.maxBatchSize) := by omega
  constructor
  · have hres : (batchPublish sett runItem req).results
        = (processResults req.stopOnError 0 (req.contentItems.map runItem)).2.2.1 := by
      unfold batchPublish
      rw [if_neg hguard]
    rw [hres, hstop]
    exact processResults_stop_len (req.contentItems.map runItem) 0 j hj hpre hfail
  · unfold batchDispatched
    rw [if_neg hguard]

/-- Witness for C1 (amended) at the concrete 3-item batch scenario. -/
theorem c1_stop_truncates_not_dispatch_witness :
    (batchPublish defaultSettings c6run c6req).results.length = 1 + 1
    ∧ batchDispatched defaultSettings c6req = c6req.contentItems :=
  c1_stop_truncates_not_dispatch defaultSettings c6run c6req 1
    (by decide) (by decide) (by decide) (by decide) (by decide)

/-- Claim C6: the 3-item batch with concurrency 1 and
`stop_on_error = true` whose second item fails yields 2 results,
1 failed, 1 successful, 3 total, overall failure; in general
`total_items` is the original request length and
`success = (failed_items == 0)`. -/
theorem c6_batch_scenario_and_counts :
    ((batchPublish defaultSettings c6run c6req).results.length = 2
     ∧ (batchPublish defaultSettings c6run c6req).failedItems = 1
     ∧ (batchPublish defaultSettings c6run c6req).successfulItems = 1
     ∧ (batchPublish defaultSettings c6run c6req).totalItems = 3
     ∧ (batchPublish defaultSettings c6run c6req).success = false)
    ∧ ∀ (sett : Settings) (runItem : AIContent → ItemOutcome) (req : BatchPublishRequest),
        (batchPublish sett runItem req).totalItems = req.contentItems.length
        ∧ (batchPublish sett runItem req).success
            = ((batchPublish sett runItem req).failedItems == 0) := by
  constructor
  · exact ⟨by decide, by decide, by decide, by decide, by decide⟩
  · intro sett runItem req
    unfold batchPublish
    by_cases hg : req.contentItems.length > sett.maxBatchSize
    · have hne0 : req.contentItems.length ≠ 0 := by omega
      rw [if_pos hg]
      refine ⟨rfl, ?_⟩
      simp [hne0]
    · rw [if_neg hg]
      exact ⟨rfl, rfl⟩

/-- Claim C10: past the batch-size guard, the counters sum to the length
of the results sequence, entry `k` of the results is the processed outcome
of item `k`, and without `stop_on_error` the results sequence covers the
whole request. -/
theorem c10_batch_result_invariants (sett : Settings)
    (runItem : AIContent → ItemOutcome) (req : BatchPublishRequest)
    (hsz : req.contentItems.length ≤ sett.maxBatchSize) :
    ((batchPublish sett runItem req).successfulItems
        + (batchPublish sett runItem req).failedItems
      = (batchPublish sett runItem req).results.length)
    ∧ (∀ k, k < (batchPublish sett runItem req).results.length →
        (batchPublish sett runItem req).results.get? k
          = ((req.contentItems.map runItem).get? k).map (fun o => processedOf k o))
    ∧ (req.stopOnError = false →
        (batchPublish sett runItem req).results.length
          = (batchPublish sett runItem req).totalItems) := by
  have hguard : ¬(req.contentItems.length > sett.maxBatchSize) := by omega
  have hres : (batchPublish sett runItem req).results
      = (processResults req.stopOnError 0 (req.contentItems.map runItem)).2.2.1 := by
    unfold batchPublish
    rw [if_neg hguard]
  have hsucc : (batchPublish sett runItem req).successfulItems
      = (processResults req.stopOnError 0 (req.contentItems.map runItem)).1 := by
    unfold batchPublish
    rw [if_neg hguard]
  have hfailc : (batchPublish sett runItem req).failedItems
      = (processResults req.stopOnError 0 (req.contentItems.map runItem)).2.1 := by
    unfold batchPublish
    rw [if_neg hguard]
  have htot : (batchPublish sett runItem req).totalItems = req.contentItems.length := by
    unfold batchPublish
    rw [if_neg hguard]
  refine ⟨?_, ?_, ?_⟩
  · rw [hres, hsucc, hfailc]
    exact processResults_counts req.stopOnError (req.contentItems.map runItem) 0
  · intro k hk
    rw [hres] at hk ⊢
    have h := processResults_get req.stopOnError (req.contentItems.map runItem) 0 k hk
    simpa using h
  · intro hstop
    rw [hres, htot, hstop]
    rw [processResults_len_nostop (req.contentItems.map runItem) 0]
    exact List.length_map _ _

/-- Witness for C10 at the concrete 3-item batch scenario. -/
theorem c10_batch_result_invariants_witness :
    ((batchPublish defaultSettings c6run c6req).successfulItems
        + (batchPublish defaultSettings c6run c6req).failedItems
      = (batchPublish defaultSettings c6run c6req).results.length)
    ∧ (batchPublish defaultSettings c6run c6req).results.get? 0
        = ((c6req.contentItems.map c6run).get? 0).map (fun o => processedOf 0 o) := by
  have h := c10_batch_result_invariants defaultSettings c6run c6req (by decide)
  exact ⟨h.1, h.2.1 0 (by decide)⟩

/-! Helper lemmas about the semaphore model. -/

/-- Initially no task holds a permit. -/
theorem runningCount_replicate (n : Nat) :
    runningCount (List.replicate n .pending) = 0 := by
  induction n with
  | zero => rfl
  | succ m ih =>
    simpa [List.replicate, runningCount, List.countP_cons, phaseRunning] using ih

/-- Replacing element `i` adjusts the permit count by the phases swapped
in and out. -/
theorem runningCount_set (ts : List TaskPhase) : ∀ (i : Nat) (x : TaskPhase),
    i < ts.length →
    runningCount (ts.set i x) + (if phaseRunning (ts.getD i .pending) then 1 else 0)
      = runningCount ts + (if phaseRunning x then 1 else 0) := by
  induction ts with
  | nil => intro i x hi; simp at hi
  | cons a l ih =>
    intro i x hi
    cases i with
    | zero =>
      simp only [List.set, List.getD, List.get?, Option.getD_some,
        runningCount, List.countP_cons]
      omega
    | succ i2 =>
      have h := ih i2 x (by simpa using hi)
      simp only [List.set, List.getD, List.get?,
        runningCount, List.countP_cons] at h ⊢
      omega

/-- The `getD` view of a `get` fact. -/
theorem getD_of_get (ts : List TaskPhase) (i : Nat) (hi : i < ts.length) (x : TaskPhase)
    (h : ts.get ⟨i, hi⟩ = x) : ts.getD i .pending = x := by
  rw [List.getD_eq_getElem ts .pending hi]
  rw [← h]
  exact (List.get_eq_getElem ts ⟨i, hi⟩).symm

/-- All reachable batch states keep at most `k` operations in flight. -/
theorem semReachable_count_le (k n : Nat) : ∀ ts, SemReachable k n ts → runningCount ts ≤ k := by
  intro ts h
  induction h with
  | refl => rw [runningCount_replicate]; exact Nat.zero_le k
  | tail _ hstep ih =>
    rename_i ts2 _
    cases hstep with
    | start i hi hp hk2 =>
      have hset := runningCount_set _ i .running hi
      rw [getD_of_get _ i hi _ hp] at hset
      simp [phaseRunning] at hset
      omega
    | finish i hi o hr =>
      have hset := runningCount_set _ i (.done o) hi
      rw [getD_of_get _ i hi _ hr] at hset
      simp [phaseRunning] at hset
      omega

/-- Claim C9: for every valid concurrency bound `k` in `[1, 10]`, no
reachable interleaving of the semaphore-guarded batch has more than `k`
publish operations in flight, and a running operation can always complete
with any outcome — success, failure, or fault — releasing its permit
(the in-flight count drops by one). -/
theorem c9_semaphore_bound (k n : Nat) (hk1 : 1 ≤ k) (hk10 : k ≤ 10) :
    (∀ ts, SemReachable k n ts → runningCount ts ≤ k)
    ∧ (∀ (ts : List TaskPhase) (i : Nat) (hi : i < ts.length) (o : ItemOutcome),
        ts.get ⟨i, hi⟩ = .running →
        SemStep k ts (ts.set i (.done o))
        ∧ runningCount (ts.set i (.done o)) + 1 = runningCount ts) := by
  refine ⟨fun ts h => semReachable_count_le k n ts h, ?_⟩
  intro ts i hi o hr
  refine ⟨SemStep.finish ts i hi o hr, ?_⟩
  have hset := runningCount_set ts i (.done o) hi
  rw [getD_of_get ts i hi _ hr] at hset
  simp [phaseRunning] at hset
  omega

/-! Helper lemmas about the per-platform loop of `publish`. -/

/-- One loop iteration, expressed through the branch classification. -/
theorem publishStep_eq (sett : Settings) (az : Analyzer) (maps : List (String × Adapter))
    (content : AIContent) (options : Options) (st : LoopState) (p : PlatformType) :
    publishStep sett az maps content options st p =
      match branchOf sett az maps content options p with
      | .missing => st
      | b =>
        { prs := dictInsert st.prs (pval p) (entryOf (pval p) b)
          allOk := st.allOk && branchOk b
          errs := st.errs ++ errContrib (pval p) b
          warns := st.warns ++ warnContrib b } := by
  unfold publishStep branchOf
  dsimp only
  cases hL : lookupStr maps (pval p) with
  | none => rfl
  | some svc =>
    dsimp only
    cases hv : (validateForPlatform sett az content (pval p)).isValid with
    | false =>
      simp only [Bool.not_false, if_pos]
      simp [entryOf, branchOk, errContrib, warnContrib]
    | true =>
      simp only [Bool.not_true, Bool.false_eq_true, if_false]
      cases hA : svc content options with
      | ok r =>
        cases hr : r.success with
        | true => simp [entryOf, branchOk, errContrib, warnContrib, hr]
        | false => simp [entryOf, branchOk, errContrib, warnContrib, hr]
      | error e =>
        simp [entryOf, branchOk, errContrib, warnContrib]

/-- The loop flag is the conjunction of the branch flags. -/
theorem foldl_allOk (sett : Settings) (az : Analyzer) (maps : List (String × Adapter))
    (content : AIContent) (options : Options) : ∀ (ps : List PlatformType) (st : LoopState),
    (ps.foldl (publishStep sett az maps content options) st).allOk
      = (st.allOk && ps.all (fun q => branchOk (branchOf sett az maps content options q))) := by
  intro ps
  induction ps with
  | nil => intro st; simp
  | cons q ps ih =>
    intro st
    rw [List.foldl_cons, publishStep_eq, List.all_cons]
    cases hb : branchOf sett az maps content options q with
    | missing => rw [ih]; simp [branchOk]
    | vfail errs => rw [ih]; simp [branchOk, Bool.and_assoc]
    | res r => rw [ih]; simp [branchOk, Bool.and_assoc]
    | exn e => rw [ih]; simp [branchOk, Bool.and_assoc]

/-- The loop's top-level errors are the concatenated branch contributions. -/
theorem foldl_errs (sett : Settings) (az : Analyzer) (maps : List (String × Adapter))
    (content : AIContent) (options : Options) : ∀ (ps : List PlatformType) (st : LoopState),
    (ps.foldl (publishStep sett az maps content options) st).errs
      = st.errs ++ (ps.map (fun q =>
          errContrib (pval q) (branchOf sett az maps content options q))).flatten := by
  intro ps
  induction ps with
  | nil => intro st; simp
  | cons q ps ih =>
    intro st
    rw [List.foldl_cons, publishStep_eq, List.map_cons, List.flatten_cons]
    cases hb : branchOf sett az maps content options q with
    | missing => rw [ih]; simp [errContrib]
    | vfail errs => rw [ih]; simp [errContrib, List.append_assoc]
    | res r => rw [ih]; simp [List.append_assoc]
    | exn e => rw [ih]; simp [errContrib, List.append_assoc]

/-- The loop's top-level warnings are the concatenated branch
contributions. -/
theorem foldl_warns (sett : Settings) (az : Analyzer) (maps : List (String × Adapter))
    (content : AIContent) (options : Options) : ∀ (ps : List PlatformType) (st : LoopState),
    (ps.foldl (publishStep sett az maps content options) st).warns
      = st.warns ++ (ps.map (fun q =>
          warnContrib (branchOf sett az maps content options q))).flatten := by
  intro ps
  induction ps with
  | nil => intro st; simp
  | cons q ps ih =>
    intro st
    rw [List.foldl_cons, publishStep_eq, List.map_cons, List.flatten_cons]
    cases hb : branchOf sett az maps content options q with
    | missing => rw [ih]; simp [warnContrib]
    | vfail errs => rw [ih]; simp [warnContrib, List.append_assoc]
    | res r => rw [ih]; simp [List.append_assoc]
    | exn e => rw [ih]; simp [warnContrib, List.append_assoc]

/-- The loop's `platform_results` dict is a pure fold of upserts when no
requested platform is missing from the adapter map. -/
theorem foldl_prs (sett : Settings) (az : Analyzer) (maps : List (String × Adapter))
    (content : AIContent) (options : Options) : ∀ (ps : List PlatformType) (st : LoopState),
    (∀ q ∈ ps, branchOf sett az maps content options q ≠ .missing) →
    (ps.foldl (publishStep sett az maps content options) st).prs
      = ps.foldl (fun d q =>
          dictInsert d (pval q) (entryOf (pval q) (branchOf sett az maps content options q)))
          st.prs := by
  intro ps
  induction ps with
  | nil => intro st _; rfl
  | cons q ps ih =>
    intro st hmiss
    rw [List.foldl_cons, List.foldl_cons, publishStep_eq]
    have hq : branchOf sett az maps content options q ≠ .missing :=
      hmiss q (List.mem_cons_self q ps)
    cases hb : branchOf sett az maps content options q with
    | missing => exact absurd hb hq
    | vfail errs => exact ih _ (fun r hr => hmiss r (List.mem_cons_of_mem q hr))
    | res r => exact ih _ (fun r2 hr2 => hmiss r2 (List.mem_cons_of_mem q hr2))
    | exn e => exact ih _ (fun r hr => hmiss r (List.mem_cons_of_mem q hr))

/-- The `.value` strings of the four platform members are distinct. -/
theorem pval_inj : ∀ p q : PlatformType, pval p = pval q → p = q := by
  intro p q h
  cases p <;> cases q <;> first | rfl | exact absurd h (by decide)

/-- Upserting a key makes it resolve to the new value. -/
theorem lookup_dictInsert_self {α : Type} (d : List (String × α)) (k : String) (v : α) :
    lookupStr (dictInsert d k v) k = some v := by
  induction d with
  | nil => simp [dictInsert, lookupStr]
  | cons kv rest ih =>
    by_cases hk : kv.1 = k
    · simp [dictInsert, hk, lookupStr]
    · simp [dictInsert, hk, lookupStr, ih]

/-- Upserting a key leaves other keys untouched. -/
theorem lookup_dictInsert_other {α : Type} (d : List (String × α)) (k k2 : String) (v : α)
    (h : k2 ≠ k) : lookupStr (dictInsert d k v) k2 = lookupStr d k2 := by
  have hne : k ≠ k2 := fun he => h he.symm
  induction d with
  | nil => simp [dictInsert, lookupStr, hne]
  | cons kv rest ih =>
    by_cases hk : kv.1 = k
    · subst hk
      simp [dictInsert, lookupStr, hne]
    · simp [dictInsert, hk, lookupStr, ih]

/-- Resolving a platform after a fold of upserts keyed by `pval` with
values given by a function of the platform. -/
theorem dictFold_lookup (f : PlatformType → PlatformResult) :
    ∀ (ps : List PlatformType) (d : List (String × PlatformResult)) (p : PlatformType),
    lookupStr (ps.foldl (fun d2 q => dictInsert d2 (pval q) (f q)) d) (pval p)
      = if p ∈ ps then some (f p) else lookupStr d (pval p) := by
  intro ps
  induction ps with
  | nil => intro d p; simp
  | cons q ps ih =>
    intro d p
    rw [List.foldl_cons, ih]
    by_cases hp : p ∈ ps
    · simp [hp, List.mem_cons]
    · by_cases hpq : p = q
      · subst hpq
        simp [hp, lookup_dictInsert_self]
      · have hne : pval p ≠ pval q := fun h => hpq (pval_inj p q h)
        simp [hp, hpq, lookup_dictInsert_other _ _ _ _ hne]

/-- A fold of upserts keeps the head entry when every later upsert of the
head key carries the same value. -/
theorem dictFold_head (f : PlatformType → PlatformResult) :
    ∀ (ps : List PlatformType) (d : List (String × PlatformResult)) (k : String)
      (v : PlatformResult),
    (∀ q ∈ ps, pval q = k → f q = v) →
    ∃ tl, ps.foldl (fun d2 q => dictInsert d2 (pval q) (f q)) ((k, v) :: d) = (k, v) :: tl := by
  intro ps
  induction ps with
  | nil => intro d k v _; exact ⟨d, rfl⟩
  | cons q ps ih =>
    intro d k v hsame
    rw [List.foldl_cons]
    by_cases hk : k = pval q
    · have hv : f q = v := hsame q (List.mem_cons_self q ps) hk.symm
      rw [show dictInsert ((k, v) :: d) (pval q) (f q) = (k, v) :: d by
        simp [dictInsert, hk, hv]]
      exact ih d k v (fun r hr hkr => hsame r (List.mem_cons_of_mem q hr) hkr)
    · rw [show dictInsert ((k, v) :: d) (pval q) (f q)
          = (k, v) :: dictInsert d (pval q) (f q) by simp [dictInsert, hk]]
      exact ih _ k v (fun r hr hkr => hsame r (List.mem_cons_of_mem q hr) hkr)

/-- A platform present in the adapter map never classifies as missing. -/
theorem branchOf_ne_missing (sett : Settings) (az : Analyzer) (maps : List (String × Adapter))
    (content : AIContent) (options : Options) (p : PlatformType)
    (h : (lookupStr maps (pval p)).isSome = true) :
    branchOf sett az maps content options p ≠ .missing := by
  unfold branchOf
  cases hL : lookupStr maps (pval p) with
  | none => rw [hL] at h; simp at h
  | some svc =>
    dsimp only
    by_cases hv : (!(validateForPlatform sett az content (pval p)).isValid) = true
    · simp [hv]
    · simp only [hv, if_false, Bool.false_eq_true]
      cases svc content options <;> simp

/-- The success flag of a non-missing entry is the branch flag. -/
theorem entryOf_success (name : String) (b : PBranch) (h : b ≠ .missing) :
    (entryOf name b).success = branchOk b := by
  cases b with
  | vfail errs => rfl
  | res r => rfl
  | exn e => rfl
  | missing => exact absurd rfl h

/-- Requested platforms that all resolve leave the unavailability filter
empty. -/
theorem filter_unavailable_nil (maps : List (String × Adapter)) (ps : List PlatformType)
    (hav : ∀ p ∈ ps, (lookupStr maps (pval p)).isSome = true) :
    ps.filter (fun p => (lookupStr maps (pval p)).isNone) = [] := by
  rw [List.filter_eq_nil_iff]
  intro a ha
  have h := hav a ha
  cases hx : lookupStr maps (pval a) with
  | none => rw [hx] at h; simp at h
  | some v => simp [hx]

/-- Past both guards, `publish` reports the loop's dict. -/
theorem publish_prs_main (sett : Settings) (az : Analyzer) (maps : List (String × Adapter))
    (req : PublishRequest)
    (hv : (validateContent sett az req.content).isValid = true)
    (hav : ∀ p ∈ req.platforms, (lookupStr maps (pval p)).isSome = true) :
    (publish sett az maps req).platformResults = (publishFinal sett az maps req).prs := by
  have hfil := filter_unavailable_nil maps req.platforms hav
  unfold publish publishFinal
  simp [hv, hfil]

/-- Past both guards, `publish` reports the loop's flag. -/
theorem publish_success_main (sett : Settings) (az : Analyzer) (maps : List (String × Adapter))
    (req : PublishRequest)
    (hv : (validateContent sett az req.content).isValid = true)
    (hav : ∀ p ∈ req.platforms, (lookupStr maps (pval p)).isSome = true) :
    (publish sett az maps req).success = (publishFinal sett az maps req).allOk := by
  have hfil := filter_unavailable_nil maps req.platforms hav
  unfold publish publishFinal
  simp [hv, hfil]

/-- Past both guards, `publish` reports the loop's error list (absent when
empty). -/
theorem publish_errors_main (sett : Settings) (az : Analyzer) (maps : List (String × Adapter))
    (req : PublishRequest)
    (hv : (validateContent sett az req.content).isValid = true)
    (hav : ∀ p ∈ req.platforms, (lookupStr maps (pval p)).isSome = true) :
    (publish sett az maps req).errors
      = (if (publishFinal sett az maps req).errs.isEmpty then none
         else some (publishFinal sett az maps req).errs) := by
  have hfil := filter_unavailable_nil maps req.platforms hav
  unfold publish publishFinal
  simp [hv, hfil]

/-- Past both guards, `publish` reports the loop's warning list (absent
when empty). -/
theorem publish_warnings_main (sett : Settings) (az : Analyzer) (maps : List (String × Adapter))
    (req : PublishRequest)
    (hv : (validateContent sett az req.content).isValid = true)
    (hav : ∀ p ∈ req.platforms, (lookupStr maps (pval p)).isSome = true) :
    (publish sett az maps req).warnings
      = (if (publishFinal sett az maps req).warns.isEmpty then none
         else some (publishFinal sett az maps req).warns) := by
  have hfil := filter_unavailable_nil maps req.platforms hav
  unfold publish publishFinal
  simp [hv, hfil]

/-- Past both guards, the top-level content id is the id of the first
successful dict entry on full success and absent otherwise. -/
theorem publish_contentId_main (sett : Settings) (az : Analyzer) (maps : List (String × Adapter))
    (req : PublishRequest)
    (hv : (validateContent sett az req.content).isValid = true)
    (hav : ∀ p ∈ req.platforms, (lookupStr maps (pval p)).isSome = true) :
    (publish sett az maps req).contentId
      = (if (publishFinal sett az maps req).allOk then
          ((((publishFinal sett az maps req).prs.map (fun kv => kv.2)).find?
              (fun r => r.success)).bind (fun r => r.contentId))
        else none) := by
  have hfil := filter_unavailable_nil maps req.platforms hav
  unfold publish publishFinal
  simp only [hv, hfil]
  by_cases hA : (req.platforms.foldl (publishStep sett az maps req.content req.options)
      ⟨[], true, [], []⟩).allOk = true
  · simp only [hA]
    cases hF : ((req.platforms.foldl (publishStep sett az maps req.content req.options)
        ⟨[], true, [], []⟩).prs.map (fun kv => kv.2)).find? (fun r => r.success) with
    | none => simp [hF]
    | some fo => simp [hF]
  · simp [hA]

/-- Past both guards, the top-level url is the url of the first successful
dict entry on full success and absent otherwise. -/
theorem publish_url_main (sett : Settings) (az : Analyzer) (maps : List (String × Adapter))
    (req : PublishRequest)
    (hv : (validateContent sett az req.content).isValid = true)
    (hav : ∀ p ∈ req.platforms, (lookupStr maps (pval p)).isSome = true) :
    (publish sett az maps req).url
      = (if (publishFinal sett az maps req).allOk then
          ((((publishFinal sett az maps req).prs.map (fun kv => kv.2)).find?
              (fun r => r.success)).bind (fun r => r.url))
        else none) := by
  have hfil := filter_unavailable_nil maps req.platforms hav
  unfold publish publishFinal
  simp only [hv, hfil]
  by_cases hA : (req.platforms.foldl (publishStep sett az maps req.content req.options)
      ⟨[], true, [], []⟩).allOk = true
  · simp only [hA]
    cases hF : ((req.platforms.foldl (publishStep sett az maps req.content req.options)
        ⟨[], true, [], []⟩).prs.map (fun kv => kv.2)).find? (fun r => r.success) with
    | none => simp [hF]
    | some fo => simp [hF]
  · simp [hA]

/-- Collapse of the optional error/warning list fields. -/
theorem optList_getD (l : List String) :
    (if l.isEmpty then none else some l).getD [] = l := by
  cases l <;> simp

/-- The branch classification of a platform resolved to `svc` whose
platform validation passes and whose adapter call raises `e`. -/
theorem branchOf_exn (sett : Settings) (az : Analyzer) (maps : List (String × Adapter))
    (content : AIContent) (options : Options) (p : PlatformType) (svc : Adapter) (e : String)
    (hsvc : lookupStr maps (pval p) = some svc)
    (hpv : (validateForPlatform sett az content (pval p)).isValid = true)
    (hexn : svc content options = .error e) :
    branchOf sett az maps content options p = .exn e := by
  unfold branchOf
  rw [hsvc]
  dsimp only
  simp [hpv, hexn]

/-- Lookup of each requested platform in the final dict, when the base
content is valid and every requested platform resolves. -/
theorem publish_lookup_entry (sett : Settings) (az : Analyzer) (maps : List (String × Adapter))
    (req : PublishRequest)
    (hv : (validateContent sett az req.content).isValid = true)
    (hav : ∀ q ∈ req.platforms, (lookupStr maps (pval q)).isSome = true) :
    ∀ p ∈ req.platforms,
      lookupStr (publish sett az maps req).platformResults (pval p)
        = some (entryOf (pval p) (branchOf sett az maps req.content req.options p)) := by
  intro p hp
  have hmiss : ∀ q ∈ req.platforms,
      branchOf sett az maps req.content req.options q ≠ .missing :=
    fun q hq => branchOf_ne_missing sett az maps req.content req.options q (hav q hq)
  rw [publish_prs_main sett az maps req hv hav]
  rw [show (publishFinal sett az maps req).prs
      = req.platforms.foldl (fun d q =>
          dictInsert d (pval q)
            (entryOf (pval q) (branchOf sett az maps req.content req.options q))) []
    from foldl_prs sett az maps req.content req.options req.platforms ⟨[], true, [], []⟩ hmiss]
  rw [dictFold_lookup _ req.platforms [] p]
  simp [hp]

/-- The loop flag of `publish` as the conjunction of branch flags. -/
theorem publishFinal_allOk (sett : Settings) (az : Analyzer) (maps : List (String × Adapter))
    (req : PublishRequest) :
    (publishFinal sett az maps req).allOk
      = req.platforms.all (fun q =>
          branchOk (branchOf sett az maps req.content req.options q)) := by
  unfold publishFinal
  rw [foldl_allOk]
  simp

/-- Claim C2 (amended): after per-platform dispatch, overall success holds
iff every requested platform's recorded result succeeded; on full success
the top-level content id and url come from the first requested platform's
entry (the first successful one); on failure both are absent while every
platform's detail is still reported; the top-level errors list
concatenates, per requested platform, the adapter errors of failed results
(a formatted message for a raised fault, nothing for a platform-validation
failure), and the top-level warnings list concatenates the warnings of
successful results only. -/
theorem c2_publish_aggregation (sett : Settings) (az : Analyzer)
    (maps : List (String × Adapter)) (req : PublishRequest)
    (hv : (validateContent sett az req.content).isValid = true)
    (hav : ∀ p ∈ req.platforms, (lookupStr maps (pval p)).isSome = true)
    (hne : req.platforms ≠ []) :
    ((publish sett az maps req).success = true ↔
        ∀ p ∈ req.platforms, ∃ en,
          lookupStr (publish sett az maps req).platformResults (pval p) = some en
          ∧ en.success = true)
    ∧ ((publish sett az maps req).success = true →
        ∃ p0 rest, req.platforms = p0 :: rest
          ∧ (publish sett az maps req).contentId
              = (entryOf (pval p0) (branchOf sett az maps req.content req.options p0)).contentId
          ∧ (publish sett az maps req).url
              = (entryOf (pval p0) (branchOf sett az maps req.content req.options p0)).url)
    ∧ ((publish sett az maps req).success = false →
        (publish sett az maps req).contentId = none
        ∧ (publish sett az maps req).url = none
        ∧ ∀ p ∈ req.platforms,
            lookupStr (publish sett az maps req).platformResults (pval p)
              = some (entryOf (pval p) (branchOf sett az maps req.content req.options p)))
    ∧ ((publish sett az maps req).errors.getD []
        = (req.platforms.map (fun p =>
            errContrib (pval p) (branchOf sett az maps req.content req.options p))).flatten
      ∧ (publish sett az maps req).warnings.getD []
        = (req.platforms.map (fun p =>
            warnContrib (branchOf sett az maps req.content req.options p))).flatten) := by
  have hmiss : ∀ q ∈ req.platforms,
      branchOf sett az maps req.content req.options q ≠ .missing :=
    fun q hq => branchOf_ne_missing sett az maps req.content req.options q (hav q hq)
  have hlook := publish_lookup_entry sett az maps req hv hav
  have hsucc := publish_success_main sett az maps req hv hav
  have hallOk := publishFinal_allOk sett az maps req
  refine ⟨?_, ?_, ?_, ?_, ?_⟩
  · constructor
    · intro hS p hp
      refine ⟨entryOf (pval p) (branchOf sett az maps req.content req.options p),
        hlook p hp, ?_⟩
      rw [entryOf_success _ _ (hmiss p hp)]
      rw [hsucc, hallOk] at hS
      exact List.all_eq_true.mp hS p hp
    · intro hAll
      rw [hsucc, hallOk]
      rw [List.all_eq_true]
      intro p hp
      obtain ⟨en, hen, henS⟩ := hAll p hp
      rw [hlook p hp] at hen
      have : en = entryOf (pval p) (branchOf sett az maps req.content req.options p) :=
        (Option.some.injEq _ _ ▸ hen).symm
      rw [this] at henS
      rw [← entryOf_success _ _ (hmiss p hp)]
      exact henS
  · intro hS
    obtain ⟨p0, rest, hps⟩ := List.exists_cons_of_ne_nil hne
    refine ⟨p0, rest, hps, ?_, ?_⟩
    all_goals {
      have hp0 : p0 ∈ req.platforms := by rw [hps]; exact List.mem_cons_self p0 rest
      have hAllOk : (publishFinal sett az maps req).allOk = true := by
        rw [← hsucc]; exact hS
      have he0S : (entryOf (pval p0)
          (branchOf sett az maps req.content req.options p0)).success = true := by
        rw [entryOf_success _ _ (hmiss p0 hp0)]
        rw [hallOk] at hAllOk
        exact List.all_eq_true.mp hAllOk p0 hp0
      have hhead : ∃ tl, (publishFinal sett az maps req).prs
          = (pval p0, entryOf (pval p0)
              (branchOf sett az maps req.content req.options p0)) :: tl := by
        have hprs : (publishFinal sett az maps req).prs
            = req.platforms.foldl (fun d q =>
                dictInsert d (pval q)
                  (entryOf (pval q) (branchOf sett az maps req.content req.options q))) [] :=
          foldl_prs sett az maps req.content req.options req.platforms ⟨[], true, [], []⟩ hmiss
        rw [hprs, hps, List.foldl_cons]
        rw [show dictInsert [] (pval p0)
            (entryOf (pval p0) (branchOf sett az maps req.content req.options p0))
            = [(pval p0, entryOf (pval p0)
                (branchOf sett az maps req.content req.options p0))] from rfl]
        apply dictFold_head
        intro q _ hq
        rw [pval_inj q p0 hq]
      obtain ⟨tl, htl⟩ := hhead
      first
        | (rw [publish_contentId_main sett az maps req hv hav, if_pos hAllOk, htl]
           rw [List.map_cons, List.find?_cons_of_pos _ he0S]
           rfl)
        | (rw [publish_url_main sett az maps req hv hav, if_pos hAllOk, htl]
           rw [List.map_cons, List.find?_cons_of_pos _ he0S]
           rfl)
    }
  · intro hS
    have hAllOk : (publishFinal sett az maps req).allOk = false := by
      rw [← hsucc]; exact hS
    refine ⟨?_, ?_, hlook⟩
    · rw [publish_contentId_main sett az maps req hv hav, if_neg (by simp [hAllOk])]
    · rw [publish_url_main sett az maps req hv hav, if_neg (by simp [hAllOk])]
  · rw [publish_errors_main sett az maps req hv hav, optList_getD]
    have := foldl_errs sett az maps req.content req.options req.platforms ⟨[], true, [], []⟩
    unfold publishFinal
    rw [this]
    simp
  · rw [publish_warnings_main sett az maps req hv hav, optList_getD]
    have := foldl_warns sett az maps req.content req.options req.platforms ⟨[], true, [], []⟩
    unfold publishFinal
    rw [this]
    simp

/-- Witness for C2 at the two-platform fixture (webflow succeeds,
wordpress fails): the instantiated error/warning characterization. -/
theorem c2_publish_aggregation_witness :
    (publish defaultSettings azOk cexMaps cexReq).errors.getD []
        = (cexReq.platforms.map (fun p =>
            errContrib (pval p)
              (branchOf defaultSettings azOk cexMaps cexReq.content cexReq.options p))).flatten
    ∧ (publish defaultSettings azOk cexMaps cexReq).warnings.getD []
        = (cexReq.platforms.map (fun p =>
            warnContrib
              (branchOf defaultSettings azOk cexMaps cexReq.content cexReq.options p))).flatten :=
  (c2_publish_aggregation defaultSettings azOk cexMaps cexReq
    (by decide) (by decide) (by decide)).2.2.2

/-- Counterexample for C2: with webflow succeeding and wordpress failing
with warning list `["w1"]`, the response's top-level warnings are absent
even though the concatenation of the per-platform warnings is `["w1"]` —
the response's warnings are not the concatenation of all per-platform
warnings. -/
theorem c2_cex :
    (publish defaultSettings azOk cexMaps cexReq).warnings = none
    ∧ ((publish defaultSettings azOk cexMaps cexReq).platformResults.map
          (fun kv => kv.2.warnings)).flatten = ["w1"]
    ∧ (publish defaultSettings azOk cexMaps cexReq).success = false := by
  exact ⟨by decide, by decide, by decide⟩

/-- Claim C8: an adapter exception is caught locally and recorded as that
platform's failed per-platform result; every other requested platform
still gets its own recorded outcome, and the call returns a structured
(non-propagating) failed response. -/
theorem c8_adapter_fault_isolated (sett : Settings) (az : Analyzer)
    (maps : List (String × Adapter)) (req : PublishRequest) (p : PlatformType)
    (svc : Adapter) (e : String)
    (hv : (validateContent sett az req.content).isValid = true)
    (hav : ∀ q ∈ req.platforms, (lookupStr maps (pval q)).isSome = true)
    (hp : p ∈ req.platforms)
    (hsvc : lookupStr maps (pval p) = some svc)
    (hpv : (validateForPlatform sett az req.content (pval p)).isValid = true)
    (hexn : svc req.content req.options = .error e) :
    lookupStr (publish sett az maps req).platformResults (pval p)
        = some ⟨false, "Error publishing to " ++ pval p ++ ": " ++ e, none, none, [e], []⟩
    ∧ (∀ q ∈ req.platforms,
        lookupStr (publish sett az maps req).platformResults (pval q)
          = some (entryOf (pval q) (branchOf sett az maps req.content req.options q)))
    ∧ (publish sett az maps req).success = false := by
  have hB := branchOf_exn sett az maps req.content req.options p svc e hsvc hpv hexn
  have hlook := publish_lookup_entry sett az maps req hv hav
  refine ⟨?_, hlook, ?_⟩
  · rw [hlook p hp, hB]
    rfl
  · rw [publish_success_main sett az maps req hv hav, publishFinal_allOk]
    cases hall : req.platforms.all (fun q =>
        branchOk (branchOf sett az maps req.content req.options q)) with
    | false => rfl
    | true =>
      exfalso
      have := List.all_eq_true.mp hall p hp
      rw [hB] at this
      simp [branchOk] at this

/-- Witness for C8: the wordpress adapter of `boomMaps` raises `boom`;
its entry records the fault and webflow still succeeds. -/
theorem c8_adapter_fault_isolated_witness :
    lookupStr (publish defaultSettings azOk boomMaps boomReq).platformResults
        (pval PlatformType.wordpress)
      = some ⟨false, "Error publishing to " ++ pval PlatformType.wordpress ++ ": " ++ "boom",
          none, none, ["boom"], []⟩
    ∧ (publish defaultSettings azOk boomMaps boomReq).success = false :=
  let h := c8_adapter_fault_isolated defaultSettings azOk boomMaps boomReq
    PlatformType.wordpress aBoom "boom"
    (by decide) (by decide) (by decide) rfl (by decide) rfl
  ⟨h.1, h.2.2⟩

/-- Witness for C9: with `k = 1` and two tasks, the state with the first
task running is reachable, holds at most one permit, and its running task
can complete with a fault, freeing the permit. -/
theorem c9_semaphore_bound_witness :
    runningCount [TaskPhase.running, TaskPhase.pending] ≤ 1
    ∧ SemStep 1 [TaskPhase.running, TaskPhase.pending]
        ([TaskPhase.running, TaskPhase.pending].set 0 (.done (.exn "x")))
    ∧ runningCount ([TaskPhase.running, TaskPhase.pending].set 0 (.done (.exn "x"))) + 1
        = runningCount [TaskPhase.running, TaskPhase.pending] := by
  have h := c9_semaphore_bound 1 2 (by decide) (by decide)
  have hreach : SemReachable 1 2 [TaskPhase.running, TaskPhase.pending] :=
    Relation.ReflTransGen.single
      (SemStep.start (List.replicate 2 .pending) 0 (by decide) (by decide) (by decide))
  have h2 := h.2 [TaskPhase.running, TaskPhase.pending] 0 (by decide) (.exn "x") (by decide)
  exact ⟨h.1 _ hreach, h2.1, h2.2⟩

end App
